import Mathlib

/-!
Verification of the Discovery-1 elevation-to-terrain pipeline.

This file gives a shallow embedding of the pipeline's core functions:
the SRTM tile parser (tile naming, point elevation queries, bounding-box
region extraction), the heightmap builder, the run-length fill-command
emitter, and the counter-driven incremental loader protocol.  JavaScript
numbers are modelled by the type `JsNum` (rationals extended with the
special values Infinity, -Infinity and NaN), so that the initial
min/max accumulators and their propagation through arithmetic are
represented faithfully.  Theorems about the embedding follow the
definitions.
-/

namespace Discovery

/-- A JavaScript number: a finite rational or one of the special values
NaN, Infinity, -Infinity (floats are modelled as exact rationals). -/
inductive JsNum where
  | nan : JsNum
  | inf : JsNum
  | negInf : JsNum
  | fin (q : ℚ) : JsNum
deriving DecidableEq, Repr

/-- JavaScript subtraction on extended numbers. -/
def JsNum.sub : JsNum → JsNum → JsNum
  | nan, _ => nan
  | _, nan => nan
  | inf, inf => nan
  | inf, _ => inf
  | negInf, negInf => nan
  | negInf, _ => negInf
  | fin _, inf => negInf
  | fin _, negInf => inf
  | fin a, fin b => fin (a - b)

/-- JavaScript addition on extended numbers. -/
def JsNum.add : JsNum → JsNum → JsNum
  | nan, _ => nan
  | _, nan => nan
  | inf, negInf => nan
  | inf, _ => inf
  | negInf, inf => nan
  | negInf, _ => negInf
  | fin _, inf => inf
  | fin _, negInf => negInf
  | fin a, fin b => fin (a + b)

/-- JavaScript division on extended numbers (division of a nonzero finite
number by zero gives a signed infinity, 0/0 gives NaN). -/
def JsNum.div : JsNum → JsNum → JsNum
  | nan, _ => nan
  | _, nan => nan
  | inf, inf => nan
  | inf, negInf => nan
  | negInf, inf => nan
  | negInf, negInf => nan
  | inf, fin b => if b < 0 then negInf else inf
  | negInf, fin b => if b < 0 then inf else negInf
  | fin _, inf => fin 0
  | fin _, negInf => fin 0
  | fin a, fin b =>
      if b = 0 then (if a = 0 then nan else if 0 < a then inf else negInf)
      else fin (a / b)

/-- JavaScript Math.min. -/
def JsNum.min : JsNum → JsNum → JsNum
  | nan, _ => nan
  | _, nan => nan
  | negInf, _ => negInf
  | _, negInf => negInf
  | inf, b => b
  | a, inf => a
  | fin a, fin b => fin (Min.min a b)

/-- JavaScript Math.max. -/
def JsNum.max : JsNum → JsNum → JsNum
  | nan, _ => nan
  | _, nan => nan
  | inf, _ => inf
  | _, inf => inf
  | negInf, b => b
  | a, negInf => a
  | fin a, fin b => fin (Max.max a b)

/-- JavaScript Math.round: rounds half toward positive infinity. -/
def JsNum.round : JsNum → JsNum
  | nan => nan
  | inf => inf
  | negInf => negInf
  | fin q => fin ((⌊q + 1/2⌋ : ℤ) : ℚ)

/-- JavaScript Math.ceil. -/
def JsNum.ceil : JsNum → JsNum
  | nan => nan
  | inf => inf
  | negInf => negInf
  | fin q => fin ((⌈q⌉ : ℤ) : ℚ)

/-- JavaScript comparison a <= b (false whenever NaN is involved). -/
def JsNum.le : JsNum → JsNum → Bool
  | nan, _ => false
  | _, nan => false
  | negInf, _ => true
  | _, inf => true
  | inf, _ => false
  | fin _, negInf => false
  | fin a, fin b => a ≤ b

/-- JavaScript strict inequality a !== b (NaN is unequal to everything,
including itself). -/
def JsNum.ne : JsNum → JsNum → Bool
  | nan, _ => true
  | _, nan => true
  | a, b => a != b

/-- The SRTM tile store: maps a tile name to its sample grid when the
backing .hgt file exists (the grid is indexed row-major by
row * 3601 + col, as in the parsed Int16Array). -/
def TileStore := String → Option (Nat → Int)

/-- Left-pad a string with the character 0 up to the given width
(String.prototype.padStart). -/
def padZero (s : String) (n : Nat) : String :=
  String.mk (List.replicate (n - s.length) '0') ++ s

/-- SRTMParser.getTileName: hemisphere letters from the signs of lat/lon,
digits from Math.floor(Math.abs(lat)) (2 digits) and
Math.floor(Math.abs(lon)) (3 digits). -/
def getTileName (lat lon : ℚ) : String :=
  let latP := if 0 ≤ lat then "N" else "S"
  let lonP := if 0 ≤ lon then "E" else "W"
  let latNum := padZero (toString ⌊|lat|⌋.toNat) 2
  let lonNum := padZero (toString ⌊|lon|⌋.toNat) 3
  latP ++ latNum ++ lonP ++ lonNum

/-- SRTMParser.getElevation: resolves the owning tile from the floor of
lat/lon, computes the nearest-sample row/column inside the tile and
substitutes 0 for the -32768 no-data sentinel.  Returns none when the
tile's backing file is absent (loadTile throws). -/
def getElevation (tiles : TileStore) (lat lon : ℚ) : Option Int :=
  match tiles (getTileName lat lon) with
  | none => none
  | some tile =>
      let tileLat : ℤ := ⌊lat⌋
      let tileLon : ℤ := ⌊lon⌋
      let latOffset : ℚ := lat - tileLat
      let lonOffset : ℚ := lon - tileLon
      let row : ℤ := ⌊(1 - latOffset) * (3601 - 1)⌋
      let col : ℤ := ⌊lonOffset * (3601 - 1)⌋
      let idx : ℤ := row * 3601 + col
      let e := tile idx.toNat
      some (if e = -32768 then 0 else e)

/-- A geographic bounding box in decimal degrees. -/
structure BoundingBox where
  west : ℚ
  east : ℚ
  south : ℚ
  north : ℚ
deriving DecidableEq, Repr

/-- One SRTM1 sample spacing in degrees (1/3600). -/
def arcSecond : ℚ := 1 / 3600

/-- Output width of loadBoundingBox: Math.ceil((east - west) / arcSecond). -/
def lbbWidth (bbox : BoundingBox) : ℤ :=
  ⌈(bbox.east - bbox.west) / arcSecond⌉

/-- Output height of loadBoundingBox: Math.ceil((north - south) / arcSecond). -/
def lbbHeight (bbox : BoundingBox) : ℤ :=
  ⌈(bbox.north - bbox.south) / arcSecond⌉

/-- The point sampled by loadBoundingBox at output cell (row, col):
getElevation at (north - row * arcSecond, west + col * arcSecond). -/
def lbbSample (tiles : TileStore) (bbox : BoundingBox) (row col : Nat) : Option Int :=
  getElevation tiles (bbox.north - row * arcSecond) (bbox.west + col * arcSecond)

/-- All samples of the region query in loop order (row-major,
north-to-south then west-to-east). -/
def lbbCells (tiles : TileStore) (bbox : BoundingBox) : List (Option Int) :=
  (List.range (lbbHeight bbox).toNat).flatMap fun row =>
    (List.range (lbbWidth bbox).toNat).map fun col =>
      lbbSample tiles bbox row col

/-- The value stored in the data array for one sample: the resolved
elevation, or 0 when the tile load threw (the catch branch). -/
def cellStore : Option Int → Int
  | some e => e
  | none => 0

/-- One update step of the running minimum: a sample contributes exactly
when it resolved and its (sentinel-substituted) value exceeds -1000. -/
def minStep (acc : JsNum) (s : Option Int) : JsNum :=
  match s with
  | some e => if -1000 < e then JsNum.min acc (JsNum.fin e) else acc
  | none => acc

/-- One update step of the running maximum. -/
def maxStep (acc : JsNum) (s : Option Int) : JsNum :=
  match s with
  | some e => if -1000 < e then JsNum.max acc (JsNum.fin e) else acc
  | none => acc

/-- Running minimum over a sample list, starting from Infinity. -/
def minFold (cells : List (Option Int)) : JsNum :=
  cells.foldl minStep JsNum.inf

/-- Running maximum over a sample list, starting from -Infinity. -/
def maxFold (cells : List (Option Int)) : JsNum :=
  cells.foldl maxStep JsNum.negInf

/-- The ElevationData record returned by loadBoundingBox. -/
structure ElevationData where
  width : ℤ
  height : ℤ
  minLat : ℚ
  maxLat : ℚ
  minLon : ℚ
  maxLon : ℚ
  minElevation : JsNum
  maxElevation : JsNum
  data : List Int
deriving DecidableEq, Repr

/-- SRTMParser.loadBoundingBox: samples the box on the native angular
grid, stores each resolved elevation (0 on a tile-load failure) and
tracks the running min/max of samples above -1000. -/
def loadBoundingBox (tiles : TileStore) (bbox : BoundingBox) : ElevationData :=
  { width := lbbWidth bbox
    height := lbbHeight bbox
    minLat := bbox.south
    maxLat := bbox.north
    minLon := bbox.west
    maxLon := bbox.east
    minElevation := minFold (lbbCells tiles bbox)
    maxElevation := maxFold (lbbCells tiles bbox)
    data := (lbbCells tiles bbox).map cellStore }

/-- TerrainConfig of the fill-based loader generator. -/
structure TerrainConfig where
  scale : ℚ
  baseY : ℤ
  bbox : BoundingBox
  downsample : ℚ
deriving DecidableEq, Repr

/-- The heightmap record produced by generateHeightmap and consumed by the
command emitter.  Heights are JavaScript numbers (they involve a division
by the configured scale). -/
structure HeightMap where
  width : ℤ
  length : ℤ
  heights : List (List JsNum)
  minY : ℤ
  maxY : JsNum
deriving DecidableEq, Repr

/-- The angular sampling step of generateHeightmap: arcSecond * downsample. -/
def hmStep (config : TerrainConfig) : ℚ := arcSecond * config.downsample

/-- generateHeightmap's width: Math.ceil((east - west) / step). -/
def hmWidth (config : TerrainConfig) : ℤ :=
  ⌈(config.bbox.east - config.bbox.west) / hmStep config⌉

/-- generateHeightmap's length: Math.ceil((north - south) / step). -/
def hmLength (config : TerrainConfig) : ℤ :=
  ⌈(config.bbox.north - config.bbox.south) / hmStep config⌉

/-- The sample drawn by generateHeightmap at grid cell (z, x). -/
def hmSample (tiles : TileStore) (config : TerrainConfig) (z x : Nat) : Option Int :=
  getElevation tiles (config.bbox.north - z * hmStep config)
    (config.bbox.west + x * hmStep config)

/-- The raw elevation pushed into the heights row at (z, x): the sample
when it resolved and exceeds -1000, otherwise the fallback 0 (both the
catch branch and the out-of-range branch push 0). -/
def hmRawCell (tiles : TileStore) (config : TerrainConfig) (z x : Nat) : Int :=
  match hmSample tiles config z x with
  | some e => if -1000 < e then e else 0
  | none => 0

/-- All samples of the heightmap build in loop order. -/
def hmCells (tiles : TileStore) (config : TerrainConfig) : List (Option Int) :=
  (List.range (hmLength config).toNat).flatMap fun z =>
    (List.range (hmWidth config).toNat).map fun x =>
      hmSample tiles config z x

/-- Realized minimum elevation of the heightmap build. -/
def hmMinElev (tiles : TileStore) (config : TerrainConfig) : JsNum :=
  minFold (hmCells tiles config)

/-- Realized maximum elevation of the heightmap build. -/
def hmMaxElev (tiles : TileStore) (config : TerrainConfig) : JsNum :=
  maxFold (hmCells tiles config)

/-- The Y-level conversion applied to each raw elevation:
baseY + Math.round((elev - minElev) / scale). -/
def hmLevel (config : TerrainConfig) (minElev : JsNum) (elev : Int) : JsNum :=
  JsNum.add (JsNum.fin (config.baseY : ℚ))
    (JsNum.round (JsNum.div (JsNum.sub (JsNum.fin (elev : ℚ)) minElev)
      (JsNum.fin config.scale)))

/-- generateHeightmap: samples the bounding box on the configured step
(with fallback 0 for unresolved or out-of-range samples), then converts
every cell to a Y level. -/
def generateHeightmap (tiles : TileStore) (config : TerrainConfig) : HeightMap :=
  { width := hmWidth config
    length := hmLength config
    heights := (List.range (hmLength config).toNat).map fun z =>
      (List.range (hmWidth config).toNat).map fun x =>
        hmLevel config (hmMinElev tiles config) (hmRawCell tiles config z x)
    minY := config.baseY
    maxY := JsNum.add (JsNum.fin (config.baseY : ℚ))
      (JsNum.ceil (JsNum.div
        (JsNum.sub (hmMaxElev tiles config) (hmMinElev tiles config))
        (JsNum.fin config.scale))) }

/-- heightmap.heights[z][x] (NaN when out of bounds, like a JavaScript
undefined entering arithmetic). -/
def getH (hm : HeightMap) (z x : Nat) : JsNum :=
  (hm.heights.getD z []).getD x JsNum.nan

/-- One emitted fill command: the two corners of the cuboid region and the
block identifier, in execution-relative coordinates. -/
structure Fill where
  x1 : Nat
  y1 : JsNum
  z1 : Nat
  x2 : Nat
  y2 : JsNum
  z2 : Nat
  block : String
deriving DecidableEq, Repr

/-- The three fill commands closing one constant-level run: a stone base
from minY - 4 up to runHeight - 4, a dirt layer on the three levels below
the surface, and a grass_block surface layer. -/
def runFills (minY : ℤ) (z runStart runEnd : Nat) (runHeight : JsNum) : List Fill :=
  [ { x1 := runStart, y1 := JsNum.fin ((minY : ℚ) - 4), z1 := z,
      x2 := runEnd, y2 := runHeight.sub (JsNum.fin 4), z2 := z, block := "stone" },
    { x1 := runStart, y1 := runHeight.sub (JsNum.fin 3), z1 := z,
      x2 := runEnd, y2 := runHeight.sub (JsNum.fin 1), z2 := z, block := "dirt" },
    { x1 := runStart, y1 := runHeight, z1 := z,
      x2 := runEnd, y2 := runHeight, z2 := z, block := "grass_block" } ]

/-- The inner column scan of generateChunkCommands for one row z: walks x
from its current value up to endX, closing the current run (emitting its
three fills) whenever the level changes or x reaches endX (where the
sentinel level -1 forces a close).  The fuel argument counts the
remaining loop iterations, endX - x + 1. -/
def chunkRowLoop (hm : HeightMap) (z endX : Nat) :
    Nat → Nat → Nat → JsNum → List Fill
  | 0, _, _, _ => []
  | fuel + 1, x, runStart, runHeight =>
      if x ≤ endX then
        let height := if x < endX then getH hm z x else JsNum.fin (-1)
        if height.ne runHeight || x == endX then
          runFills hm.minY z runStart (x - 1) runHeight ++
            chunkRowLoop hm z endX fuel (x + 1) x height
        else
          chunkRowLoop hm z endX fuel (x + 1) runStart runHeight
      else []

/-- Exclusive end column of the chunk starting at startX:
Math.min(startX + chunkSize, heightmap.width), clamped to Nat. -/
def chunkEndX (hm : HeightMap) (startX chunkSize : Nat) : Nat :=
  (Min.min ((startX : ℤ) + chunkSize) hm.width).toNat

/-- Exclusive end row of the chunk starting at startZ. -/
def chunkEndZ (hm : HeightMap) (startZ chunkSize : Nat) : Nat :=
  (Min.min ((startZ : ℤ) + chunkSize) hm.length).toNat

/-- generateChunkCommands: for each row of the chunk, run-length compress
the columns and emit three fills per run. -/
def generateChunkCommands (hm : HeightMap) (startX startZ chunkSize : Nat) : List Fill :=
  let endX := chunkEndX hm startX chunkSize
  let endZ := chunkEndZ hm startZ chunkSize
  (List.range (endZ - startZ)).flatMap fun dz =>
    chunkRowLoop hm (startZ + dz) endX (endX - startX) (startX + 1) startX
      (getH hm (startZ + dz) startX)

/-- The same column scan, recording the closed runs (start column, end
column, level) instead of rendering their fills. -/
def chunkRowRuns (hm : HeightMap) (z endX : Nat) :
    Nat → Nat → Nat → JsNum → List (Nat × Nat × JsNum)
  | 0, _, _, _ => []
  | fuel + 1, x, runStart, runHeight =>
      if x ≤ endX then
        let height := if x < endX then getH hm z x else JsNum.fin (-1)
        if height.ne runHeight || x == endX then
          (runStart, x - 1, runHeight) ::
            chunkRowRuns hm z endX fuel (x + 1) x height
        else
          chunkRowRuns hm z endX fuel (x + 1) runStart runHeight
      else []

/-- Whether the y coordinate lies between the two corner heights of a
fill, in either orientation (Minecraft normalizes the corners). -/
def yBetween (y a b : JsNum) : Bool :=
  (JsNum.le a y && JsNum.le y b) || (JsNum.le b y && JsNum.le y a)

/-- Whether a fill command assigns the block at (x, y, z). -/
def covers (f : Fill) (x : Nat) (y : ℚ) (z : Nat) : Bool :=
  (Min.min f.x1 f.x2 ≤ x && x ≤ Max.max f.x1 f.x2) &&
  yBetween (JsNum.fin y) f.y1 f.y2 &&
  (Min.min f.z1 f.z2 ≤ z && z ≤ Max.max f.z1 f.z2)

/-- Decompression of a fill list: the block left at (x, y, z) after
expanding every fill into per-cell assignments in order (a later fill
overwrites an earlier one), or none if no fill touches the cell. -/
def expand (fills : List Fill) (x : Nat) (y : ℚ) (z : Nat) : Option String :=
  fills.foldl (fun acc f => if covers f x y z then some f.block else acc) none

/-- The intended material column for a cell of surface level h over a
field with minimum level minY: grass at the surface, dirt on the three
levels below it, stone from minY - 4 up to h - 4, nothing elsewhere. -/
def expectedColumn (minY : ℤ) (h : ℚ) (y : ℚ) : Option String :=
  if y = h then some "grass_block"
  else if h - 3 ≤ y ∧ y ≤ h - 1 then some "dirt"
  else if (minY : ℚ) - 4 ≤ y ∧ y ≤ h - 4 then some "stone"
  else none

/-- The rows dispatched by one invocation of load_terrain_row when the
counter holds c: the dispatch table runs row i exactly when the score
matches i, for i in [0, chunksZ). -/
def rowsAt (chunksZ : Nat) (c : ℤ) : List Nat :=
  (List.range chunksZ).filter fun i => c == (i : ℤ)

/-- One invocation of load_terrain_row: dispatch the row selected by the
counter, increment the counter, and when it has reached chunksZ report
completion and reset it to 0.  Returns the new counter value, the rows
run, and whether the completion branch fired. -/
def loadTerrainRowStep (chunksZ : Nat) (c : ℤ) : ℤ × List Nat × Bool :=
  let ran := rowsAt chunksZ c
  let c1 := c + 1
  if (chunksZ : ℤ) ≤ c1 then (0, ran, true) else (c1, ran, false)

/-- n consecutive invocations of load_terrain_row starting from counter c:
final counter value, all rows run in order, and the number of times the
completion branch fired. -/
def runLoader (chunksZ : Nat) : ℤ → Nat → ℤ × List Nat × Nat
  | c, 0 => (c, [], 0)
  | c, n + 1 =>
      let s := loadTerrainRowStep chunksZ c
      let rest := runLoader chunksZ s.1 n
      (rest.1, s.2.1 ++ rest.2.1, (if s.2.2 then 1 else 0) + rest.2.2)

/-- A tile name derivation that follows the specification's words: the
hemisphere-prefixed, zero-padded encoding of the integer floor of the
latitude (2 digits) and longitude (3 digits). -/
def tileNameSpec (lat lon : ℚ) : String :=
  (if 0 ≤ lat then "N" else "S") ++ padZero (toString ⌊lat⌋.natAbs) 2 ++
  (if 0 ≤ lon then "E" else "W") ++ padZero (toString ⌊lon⌋.natAbs) 3

/-- A tile store with no tiles at all (an empty data directory). -/
def envNone : TileStore := fun _ => none

/-- A tile whose every sample is 300 meters. -/
def tileConst300 : Nat → Int := fun _ => 300

/-- A store holding only the tile N47E028, with constant elevation 300. -/
def env1 : TileStore :=
  fun s => if s = "N47E028" then some tileConst300 else none

/-- A 2 x 1 heightmap build at one-degree step over [28,30) x [47,47.5):
the western cell lands in the present tile N47E028 (300 m), the eastern
cell in the absent tile N47E029. -/
def cfg1 : TerrainConfig :=
  { scale := 30, baseY := 64, downsample := 3600,
    bbox := { west := 28, east := 30, south := 47, north := 95/2 } }

/-- An invalid configuration: non-positive scale and a degenerate
bounding box (west = east and south = north). -/
def cfgDegenerate : TerrainConfig :=
  { scale := -30, baseY := 64, downsample := 1,
    bbox := { west := 28, east := 28, south := 47, north := 47 } }

/-- A one-cell bounding box whose single sample lies in tile N47E029,
which env1 does not hold. -/
def bboxMissing : BoundingBox :=
  { west := 29, east := 29 + 1/3600, south := 47 - 1/3600, north := 47 }

/-- A tile whose sample at row 1800, column 0 is the no-data sentinel
-32768 and whose other samples are 300 meters. -/
def tileSentinel : Nat → Int :=
  fun i => if i = 1800 * 3601 then -32768 else 300

/-- A store holding only the tile N46E028, with one sentinel sample. -/
def envSentinel : TileStore :=
  fun s => if s = "N46E028" then some tileSentinel else none

/-- A 2 x 1 region at latitude 46.5 whose first sample hits the sentinel
cell of tileSentinel and whose second sample reads 300 m. -/
def bboxSentinel : BoundingBox :=
  { west := 28, east := 28 + 2/3600, south := 93/2 - 1/3600, north := 93/2 }

/-- A tile whose every sample is the out-of-range value -2000 (below the
-1000 validity bound but not the -32768 sentinel, so getElevation does
not substitute it). -/
def tileOutOfRange : Nat → Int := fun _ => -2000

/-- A store holding only the tile N47E029, filled with -2000. -/
def envOutOfRange : TileStore :=
  fun s => if s = "N47E029" then some tileOutOfRange else none

/-- Claim C9: for every heightmap build and region query, the constructed
dimensions are exactly width = ceil((east - west)/step) and
length (resp. height) = ceil((north - south)/step), where the step is
arcSecond * downsample for the heightmap and arcSecond for the region
query. -/
theorem C9_dimensions (tiles : TileStore) (config : TerrainConfig) (bbox : BoundingBox) :
    (generateHeightmap tiles config).width =
      ⌈(config.bbox.east - config.bbox.west) / (arcSecond * config.downsample)⌉ ∧
    (generateHeightmap tiles config).length =
      ⌈(config.bbox.north - config.bbox.south) / (arcSecond * config.downsample)⌉ ∧
    (loadBoundingBox tiles bbox).width = ⌈(bbox.east - bbox.west) / arcSecond⌉ ∧
    (loadBoundingBox tiles bbox).height = ⌈(bbox.north - bbox.south) / arcSecond⌉ :=
  ⟨rfl, rfl, rfl, rfl⟩

/-- Claim C2 counterexample: a configuration with non-positive scale
(-30) and a degenerate bounding box (west = east, south = north) does
not raise at construction; generateHeightmap returns a defined, empty
heightmap (the dimension arithmetic even produces maxY = Infinity and
no one checks it). -/
theorem C2_counterexample :
    generateHeightmap envNone cfgDegenerate =
      { width := 0, length := 0, heights := [], minY := 64, maxY := JsNum.inf } := by
  have hw : hmWidth cfgDegenerate = 0 := by
    norm_num [hmWidth, cfgDegenerate, hmStep, arcSecond]
  have hl : hmLength cfgDegenerate = 0 := by
    norm_num [hmLength, cfgDegenerate, hmStep, arcSecond]
  have hc : hmCells envNone cfgDegenerate = [] := by
    simp [hmCells, hl]
  have hmin : hmMinElev envNone cfgDegenerate = JsNum.inf := by
    rw [hmMinElev, hc]; rfl
  have hmax : hmMaxElev envNone cfgDegenerate = JsNum.negInf := by
    rw [hmMaxElev, hc]; rfl
  have hdiv : JsNum.div
      (JsNum.sub (hmMaxElev envNone cfgDegenerate) (hmMinElev envNone cfgDegenerate))
      (JsNum.fin cfgDegenerate.scale) = JsNum.inf := by
    rw [hmin, hmax]
    have hs : JsNum.sub JsNum.negInf JsNum.inf = JsNum.negInf := rfl
    rw [hs]
    have h0 : cfgDegenerate.scale = (-30 : ℚ) := rfl
    rw [h0]
    have hd : JsNum.div JsNum.negInf (JsNum.fin (-30)) =
        if (-30 : ℚ) < 0 then JsNum.inf else JsNum.negInf := rfl
    rw [hd, if_pos (by norm_num : (-30 : ℚ) < 0)]
  unfold generateHeightmap
  rw [hw, hl, hdiv]
  rfl

/-- Claim C2 (amended): the pipeline performs no construction-time
validation: a degenerate bounding box (east <= west) makes the
heightmap build return a result with no columns (every heights row is
empty) instead of raising, and a non-positive scale is accepted
unchecked (the statement quantifies over every scale). -/
theorem C2_no_validation (tiles : TileStore) (config : TerrainConfig)
    (hdeg : config.bbox.east ≤ config.bbox.west) (hds : 0 < config.downsample) :
    (generateHeightmap tiles config).width ≤ 0 ∧
    ∀ row ∈ (generateHeightmap tiles config).heights, row = [] := by
  have hstep : 0 < hmStep config := by
    have : (0 : ℚ) < arcSecond := by norm_num [arcSecond]
    exact mul_pos this hds
  have hw : hmWidth config ≤ 0 := by
    rw [hmWidth]
    have h1 : (config.bbox.east - config.bbox.west) / hmStep config ≤ 0 :=
      div_nonpos_of_nonpos_of_nonneg (by linarith) (le_of_lt hstep)
    exact Int.ceil_le.mpr (by exact_mod_cast h1)
  refine ⟨hw, ?_⟩
  intro row hrow
  simp only [generateHeightmap, List.mem_map] at hrow
  obtain ⟨z, _, hz⟩ := hrow
  have : (hmWidth config).toNat = 0 := Int.toNat_of_nonpos hw
  simp [← hz, this]

/-- Witness for C2_no_validation at the concrete invalid configuration. -/
theorem C2_witness :
    (generateHeightmap envNone cfgDegenerate).width ≤ 0 ∧
    ∀ row ∈ (generateHeightmap envNone cfgDegenerate).heights, row = [] :=
  C2_no_validation envNone cfgDegenerate (le_refl _) (by norm_num [cfgDegenerate])

/-- Claim C5: evaluation of the code at the failing input.  For the
fractional negative latitude -0.5 the code derives the tile digits from
Math.floor(Math.abs(lat)) = 0 and produces "S00E028", while the
specified encoding of the integer floor (floor(-0.5) = -1) is
"S01E028" (tileNameSpec follows the specification's words).  This also
contradicts getElevation itself, which computes the in-tile offset
relative to Math.floor(lat) = -1. -/
theorem C5_tile_name_eval :
    getTileName (-1/2) (57/2) = "S00E028" ∧ tileNameSpec (-1/2) (57/2) = "S01E028" := by
  have h1 : ¬ ((0:ℚ) ≤ -1/2) := by norm_num
  have h2 : (0:ℚ) ≤ 57/2 := by norm_num
  have h3 : (⌊|(-1/2 : ℚ)|⌋ : ℤ) = 0 := by
    rw [abs_of_nonpos (by norm_num : (-1/2 : ℚ) ≤ 0)]
    norm_num
  have h4 : (⌊|(57/2 : ℚ)|⌋ : ℤ) = 28 := by
    rw [abs_of_nonneg (by norm_num : (0:ℚ) ≤ 57/2)]
    norm_num
  have h5 : (⌊(-1/2 : ℚ)⌋ : ℤ) = -1 := by norm_num
  have h6 : (⌊(57/2 : ℚ)⌋ : ℤ) = 28 := by norm_num
  constructor
  · simp only [getTileName, h1, h3, h4, if_false, if_pos h2]
    rfl
  · simp only [tileNameSpec, h1, h5, h6, if_false, if_pos h2]
    rfl

/-- The dispatch table fires exactly the row matching the counter. -/
lemma rowsAt_eq (n k : Nat) (hk : k < n) : rowsAt n (k : ℤ) = [k] := by
  induction n with
  | zero => omega
  | succ n ih =>
      rw [rowsAt, List.range_succ, List.filter_append]
      by_cases h : k < n
      · have h1 : rowsAt n (k : ℤ) = [k] := ih h
        rw [rowsAt] at h1
        rw [h1]
        have hne : ((k : ℤ) == (n : ℤ)) = false := by
          simp only [beq_eq_false_iff_ne, ne_eq]
          omega
        have h2 : List.filter (fun i : ℕ => (k : ℤ) == (i : ℤ)) [n] = [] := by
          simp [List.filter, hne]
        rw [h2, List.append_nil]
      · have hkn : k = n := by omega
        subst hkn
        have h1 : List.filter (fun i : ℕ => (k : ℤ) == (i : ℤ)) (List.range k) = [] := by
          rw [List.filter_eq_nil_iff]
          intro a ha
          have hak : a < k := List.mem_range.mp ha
          simp only [beq_iff_eq]
          omega
        rw [h1]
        simp

/-- Starting the loader at counter k < n and invoking it n - k times runs
rows k through n-1 in order, fires the completion branch once, and
leaves the counter at 0. -/
lemma loader_aux (n : Nat) :
    ∀ d k : Nat, k + d + 1 = n →
      runLoader n (k : ℤ) (n - k) = (0, List.range' k (n - k), 1) := by
  intro d
  induction d with
  | zero =>
      intro k hk
      have hn : n - k = 1 := by omega
      rw [hn]
      have hklt : k < n := by omega
      simp only [runLoader, loadTerrainRowStep, rowsAt_eq n k hklt]
      have hc : ((n : ℤ) ≤ (k : ℤ) + 1) := by
        omega
      rw [if_pos hc]
      simp [List.range'_one]
  | succ d ih =>
      intro k hk
      have hklt : k < n := by omega
      have hn : n - k = (n - (k + 1)) + 1 := by omega
      rw [hn]
      simp only [runLoader, loadTerrainRowStep, rowsAt_eq n k hklt]
      have hc : ¬ ((n : ℤ) ≤ (k : ℤ) + 1) := by
        omega
      rw [if_neg hc]
      have hcast : ((k : ℤ) + 1) = ((k + 1 : Nat) : ℤ) := by push_cast; ring
      rw [hcast]
      have hrest := ih (k + 1) (by omega)
      rw [hrest]
      simp [List.range'_succ]

/-- Claim C4: with rowCount >= 1 generated row scripts, starting the
external counter at 0 and invoking load_terrain_row exactly rowCount
times runs each row exactly once (in order), reaches the completion
branch exactly once, and leaves the counter at 0. -/
theorem C4_incremental_protocol (n : Nat) (h : 1 ≤ n) :
    runLoader n 0 n = (0, List.range n, 1) := by
  have := loader_aux n (n - 1) 0 (by omega)
  simpa [List.range_eq_range'] using this

/-- Witness: the incremental protocol at rowCount = 3. -/
theorem C4_witness : 1 ≤ 3 ∧ runLoader 3 0 3 = (0, List.range 3, 1) :=
  ⟨by decide, C4_incremental_protocol 3 (by decide)⟩

/-- Indexing a row-major flattened grid at r * w + c reads entry (r, c). -/
lemma getD_grid {α : Type} (w : Nat) (d : α) :
    ∀ (h : Nat) (f : Nat → Nat → α) (r c : Nat), r < h → c < w →
      (((List.range h).flatMap fun row => (List.range w).map (f row))).getD (r * w + c) d
        = f r c := by
  intro h
  induction h with
  | zero =>
      intro f r c hr hc
      omega
  | succ h ih =>
      intro f r c hr hc
      rw [List.range_succ_eq_map, List.flatMap_cons, List.flatMap_map]
      cases r with
      | zero =>
          rw [Nat.zero_mul, Nat.zero_add]
          rw [List.getD_append _ _ _ _ (by simpa using hc)]
          rw [List.getD_eq_getElem?_getD, List.getElem?_map, List.getElem?_range hc]
          rfl
      | succ r =>
          have hlen : ((List.range w).map (f 0)).length = w := by simp
          have hge : ((List.range w).map (f 0)).length ≤ (r + 1) * w + c := by
            rw [hlen]
            have : w ≤ (r + 1) * w := Nat.le_mul_of_pos_left w (Nat.succ_pos r)
            omega
          rw [List.getD_append_right _ _ _ _ hge]
          have hidx : (r + 1) * w + c - ((List.range w).map (f 0)).length = r * w + c := by
            rw [hlen]
            have : (r + 1) * w = r * w + w := by ring
            omega
          rw [hidx]
          exact ih (fun row => f (Nat.succ row)) r c (by omega) hc

/-- The data array entry of a region query at (row, col) is the stored
value of the sample at that cell. -/
lemma lbbData_getD (tiles : TileStore) (bbox : BoundingBox) (row col : Nat)
    (hr : row < (lbbHeight bbox).toNat) (hc : col < (lbbWidth bbox).toNat) :
    (loadBoundingBox tiles bbox).data.getD (row * (lbbWidth bbox).toNat + col) 0
      = cellStore (lbbSample tiles bbox row col) := by
  show ((lbbCells tiles bbox).map cellStore).getD _ 0 = _
  rw [lbbCells, List.map_flatMap]
  have hmaps : ∀ r : Nat,
      (List.map cellStore ((List.range (lbbWidth bbox).toNat).map
        fun c => lbbSample tiles bbox r c))
      = (List.range (lbbWidth bbox).toNat).map
        fun c => cellStore (lbbSample tiles bbox r c) := by
    intro r
    rw [List.map_map]
    rfl
  simp only [hmaps]
  exact getD_grid _ 0 _ (fun r c => cellStore (lbbSample tiles bbox r c)) row col hr hc

/-- Claim C6: a point-elevation query on a missing tile fails (the error
propagates), while a region query recovers locally: the affected cell
falls back to the stored elevation 0 and the query still returns a
result.  (The warning written to the console on the recovery path is
I/O and outside the embedding.) -/
theorem C6_missing_tile (tiles : TileStore) :
    (∀ lat lon : ℚ, tiles (getTileName lat lon) = none →
      getElevation tiles lat lon = none) ∧
    (∀ (bbox : BoundingBox) (row col : Nat),
      row < (lbbHeight bbox).toNat → col < (lbbWidth bbox).toNat →
      tiles (getTileName (bbox.north - row * arcSecond)
        (bbox.west + col * arcSecond)) = none →
      (loadBoundingBox tiles bbox).data.getD (row * (lbbWidth bbox).toNat + col) 0 = 0) := by
  constructor
  · intro lat lon hmiss
    rw [getElevation, hmiss]
  · intro bbox row col hr hc hmiss
    rw [lbbData_getD tiles bbox row col hr hc]
    rw [lbbSample, getElevation, hmiss]
    rfl

/-- Claim C10: when every tile is missing, the region query still
returns a field with every data cell 0, but its reported minElevation
is the untouched initial accumulator Infinity and its maxElevation is
-Infinity. -/
theorem C10_empty_region (tiles : TileStore) (bbox : BoundingBox)
    (h : ∀ lat lon : ℚ, tiles (getTileName lat lon) = none) :
    (∀ v ∈ (loadBoundingBox tiles bbox).data, v = 0) ∧
    (loadBoundingBox tiles bbox).minElevation = JsNum.inf ∧
    (loadBoundingBox tiles bbox).maxElevation = JsNum.negInf := by
  have hcells : ∀ s ∈ lbbCells tiles bbox, s = none := by
    intro s hs
    simp only [lbbCells, List.mem_flatMap, List.mem_map] at hs
    obtain ⟨r, _, c, _, hsc⟩ := hs
    rw [← hsc, lbbSample, getElevation, h]
  refine ⟨?_, ?_, ?_⟩
  · intro v hv
    simp only [loadBoundingBox, List.mem_map] at hv
    obtain ⟨s, hs, hvs⟩ := hv
    rw [← hvs, hcells s hs]
    rfl
  · show minFold (lbbCells tiles bbox) = JsNum.inf
    rw [minFold]
    generalize hgen : lbbCells tiles bbox = l at hcells
    clear hgen
    induction l with
    | nil => rfl
    | cons s l ih =>
        rw [List.foldl_cons]
        have hs : s = none := hcells s (List.mem_cons_self s l)
        rw [hs]
        exact ih fun t ht => hcells t (List.mem_cons_of_mem s ht)
  · show maxFold (lbbCells tiles bbox) = JsNum.negInf
    rw [maxFold]
    generalize hgen : lbbCells tiles bbox = l at hcells
    clear hgen
    induction l with
    | nil => rfl
    | cons s l ih =>
        rw [List.foldl_cons]
        have hs : s = none := hcells s (List.mem_cons_self s l)
        rw [hs]
        exact ih fun t ht => hcells t (List.mem_cons_of_mem s ht)

/-- Witness: the all-missing region query over a concrete store and box. -/
theorem C10_witness :
    (∀ v ∈ (loadBoundingBox envNone bboxSentinel).data, v = 0) ∧
    (loadBoundingBox envNone bboxSentinel).minElevation = JsNum.inf ∧
    (loadBoundingBox envNone bboxSentinel).maxElevation = JsNum.negInf :=
  C10_empty_region envNone bboxSentinel fun _ _ => rfl

/-- Tile name evaluation for nonnegative coordinates. -/
lemma getTileName_nonneg (lat lon : ℚ) (la lo : ℕ) (hlat : 0 ≤ lat) (hlon : 0 ≤ lon)
    (hla : ⌊lat⌋ = (la : ℤ)) (hlo : ⌊lon⌋ = (lo : ℤ)) :
    getTileName lat lon = "N" ++ padZero (toString la) 2 ++ "E" ++ padZero (toString lo) 3 := by
  simp only [getTileName, if_pos hlat, if_pos hlon, abs_of_nonneg hlat, abs_of_nonneg hlon,
    hla, hlo, Int.toNat_natCast]

/-- getElevation unfolded to an Option.map over the tile lookup. -/
lemma getElevation_eq (tiles : TileStore) (lat lon : ℚ) :
    getElevation tiles lat lon = Option.map (fun tile =>
      let idx := ((⌊(1 - (lat - (⌊lat⌋ : ℚ))) * (3601 - 1)⌋ : ℤ) * 3601 +
        ⌊(lon - (⌊lon⌋ : ℚ)) * (3601 - 1)⌋).toNat
      if tile idx = -32768 then 0 else tile idx) (tiles (getTileName lat lon)) := by
  rw [getElevation]
  cases tiles (getTileName lat lon) <;> rfl

/-- The running minimum accumulates exactly the resolved samples whose
substituted value exceeds -1000. -/
lemma foldl_minStep_filter :
    ∀ (l : List (Option Int)) (acc : JsNum),
      l.foldl minStep acc =
        (((l.filterMap id).filter fun e => -1000 < e).foldl
          (fun (a : JsNum) (e : Int) => JsNum.min a (JsNum.fin (e : ℚ))) acc) := by
  intro l
  induction l with
  | nil => intro acc; rfl
  | cons s l ih =>
      intro acc
      cases s with
      | none =>
          rw [List.foldl_cons, List.filterMap_cons]
          exact ih acc
      | some e =>
          by_cases he : -1000 < e
          · have h1 : minStep acc (some e) = JsNum.min acc (JsNum.fin (e : ℚ)) := by
              simp [minStep, he]
            have h2 : ((some e :: l).filterMap id).filter (fun e => -1000 < e)
                = e :: (l.filterMap id).filter (fun e => -1000 < e) := by
              simp [he]
            rw [List.foldl_cons, h1, h2, List.foldl_cons]
            exact ih _
          · have h1 : minStep acc (some e) = acc := by
              simp [minStep, he]
            have h2 : ((some e :: l).filterMap id).filter (fun e => -1000 < e)
                = (l.filterMap id).filter (fun e => -1000 < e) := by
              simp [he]
            rw [List.foldl_cons, h1, h2]
            exact ih _

/-- The running maximum accumulates exactly the resolved samples whose
substituted value exceeds -1000. -/
lemma foldl_maxStep_filter :
    ∀ (l : List (Option Int)) (acc : JsNum),
      l.foldl maxStep acc =
        (((l.filterMap id).filter fun e => -1000 < e).foldl
          (fun (a : JsNum) (e : Int) => JsNum.max a (JsNum.fin (e : ℚ))) acc) := by
  intro l
  induction l with
  | nil => intro acc; rfl
  | cons s l ih =>
      intro acc
      cases s with
      | none =>
          rw [List.foldl_cons, List.filterMap_cons]
          exact ih acc
      | some e =>
          by_cases he : -1000 < e
          · have h1 : maxStep acc (some e) = JsNum.max acc (JsNum.fin (e : ℚ)) := by
              simp [maxStep, he]
            have h2 : ((some e :: l).filterMap id).filter (fun e => -1000 < e)
                = e :: (l.filterMap id).filter (fun e => -1000 < e) := by
              simp [he]
            rw [List.foldl_cons, h1, h2, List.foldl_cons]
            exact ih _
          · have h1 : maxStep acc (some e) = acc := by
              simp [maxStep, he]
            have h2 : ((some e :: l).filterMap id).filter (fun e => -1000 < e)
                = (l.filterMap id).filter (fun e => -1000 < e) := by
              simp [he]
            rw [List.foldl_cons, h1, h2]
            exact ih _

/-- Claim C7 (amended): minElevation and maxElevation are the running
min/max over exactly those samples that resolved (no tile-load failure)
and whose sentinel-substituted value exceeds -1000.  Because the
sentinel is substituted with 0 inside getElevation before this check, a
no-data sample contributes 0 to the range; only missing-tile samples
are excluded. -/
theorem C7_minmax_tracking (tiles : TileStore) (bbox : BoundingBox) :
    (loadBoundingBox tiles bbox).minElevation =
      ((((lbbCells tiles bbox).filterMap id).filter fun e => -1000 < e).foldl
        (fun (a : JsNum) (e : Int) => JsNum.min a (JsNum.fin (e : ℚ))) JsNum.inf) ∧
    (loadBoundingBox tiles bbox).maxElevation =
      ((((lbbCells tiles bbox).filterMap id).filter fun e => -1000 < e).foldl
        (fun (a : JsNum) (e : Int) => JsNum.max a (JsNum.fin (e : ℚ))) JsNum.negInf) :=
  ⟨foldl_minStep_filter _ _, foldl_maxStep_filter _ _⟩

/-- Witness for claim C6 at concrete inputs: a point query on an empty
store fails, and the region cell of bboxMissing (whose tile N47E029 is
absent from env1) falls back to 0. -/
theorem C6_witness :
    getElevation envNone 47 28 = none ∧
    (loadBoundingBox env1 bboxMissing).data.getD
      (0 * (lbbWidth bboxMissing).toNat + 0) 0 = 0 := by
  constructor
  · exact (C6_missing_tile envNone).1 47 28 rfl
  · apply (C6_missing_tile env1).2 bboxMissing 0 0
    · norm_num [lbbHeight, bboxMissing, arcSecond]
    · norm_num [lbbWidth, bboxMissing, arcSecond]
    · have hlat : bboxMissing.north - (0 : ℕ) * arcSecond = 47 := by
        norm_num [bboxMissing]
      have hlon : bboxMissing.west + (0 : ℕ) * arcSecond = 29 := by
        norm_num [bboxMissing]
      rw [hlat, hlon]
      have hname : getTileName 47 29 = "N47E029" := by
        rw [getTileName_nonneg 47 29 47 29 (by norm_num) (by norm_num)
          (by norm_num) (by norm_num)]
        rfl
      rw [hname]
      rfl

/-- getElevation evaluation when the tile is present and the in-tile
row/column floors are known. -/
lemma getElevation_present (tiles : TileStore) (lat lon : ℚ) (tile : Nat → Int) (r c : ℤ)
    (hname : tiles (getTileName lat lon) = some tile)
    (hr : (⌊(1 - (lat - (⌊lat⌋ : ℚ))) * (3601 - 1)⌋ : ℤ) = r)
    (hc : (⌊(lon - (⌊lon⌋ : ℚ)) * (3601 - 1)⌋ : ℤ) = c) :
    getElevation tiles lat lon =
      some (if tile (r * 3601 + c).toNat = -32768 then 0
        else tile (r * 3601 + c).toNat) := by
  rw [getElevation_eq, hname]
  simp only [hr, hc]
  rfl

/-- Reading a mapped range list at an in-range index. -/
lemma getD_map_range {α : Type} (n : Nat) (f : Nat → α) (d : α) (i : Nat) (hi : i < n) :
    ((List.range n).map f).getD i d = f i := by
  rw [List.getD_eq_getElem?_getD, List.getElem?_map, List.getElem?_range hi]
  rfl

/-- Reading the generated heightmap at an in-range cell yields the level
conversion of that cell's raw elevation. -/
lemma getH_generate (tiles : TileStore) (config : TerrainConfig) (z x : Nat)
    (hz : z < (hmLength config).toNat) (hx : x < (hmWidth config).toNat) :
    getH (generateHeightmap tiles config) z x
      = hmLevel config (hmMinElev tiles config) (hmRawCell tiles config z x) := by
  rw [getH]
  rw [show (generateHeightmap tiles config).heights
      = (List.range (hmLength config).toNat).map (fun z =>
          (List.range (hmWidth config).toNat).map fun x =>
            hmLevel config (hmMinElev tiles config) (hmRawCell tiles config z x))
    from rfl]
  rw [getD_map_range _ _ _ z hz, getD_map_range _ _ _ x hx]

/-- The level conversion at a finite realized minimum and nonzero scale. -/
lemma hmLevel_fin (config : TerrainConfig) (m : ℚ) (elev : Int)
    (h : config.scale ≠ 0) :
    hmLevel config (JsNum.fin m) elev =
      JsNum.fin ((config.baseY : ℚ) +
        ((⌊((elev : ℚ) - m) / config.scale + 1/2⌋ : ℤ) : ℚ)) := by
  rw [hmLevel]
  have h1 : JsNum.sub (JsNum.fin (elev : ℚ)) (JsNum.fin m)
      = JsNum.fin ((elev : ℚ) - m) := rfl
  rw [h1]
  have h2 : JsNum.div (JsNum.fin ((elev : ℚ) - m)) (JsNum.fin config.scale)
      = JsNum.fin (((elev : ℚ) - m) / config.scale) := by
    show (if config.scale = 0 then
        (if ((elev : ℚ) - m) = 0 then JsNum.nan
          else if 0 < ((elev : ℚ) - m) then JsNum.inf else JsNum.negInf)
      else JsNum.fin (((elev : ℚ) - m) / config.scale))
      = JsNum.fin (((elev : ℚ) - m) / config.scale)
    rw [if_neg h]
  rw [h2]
  rfl

/-- The sentinel sample of bboxSentinel resolves to the substituted 0. -/
lemma sampleSentinel00 : lbbSample envSentinel bboxSentinel 0 0 = some 0 := by
  have harg1 : bboxSentinel.north - ((0 : ℕ) : ℚ) * arcSecond = 93/2 := by
    norm_num [bboxSentinel]
  have harg2 : bboxSentinel.west + ((0 : ℕ) : ℚ) * arcSecond = 28 := by
    norm_num [bboxSentinel]
  have hname : envSentinel (getTileName (93/2) 28) = some tileSentinel := by
    rw [getTileName_nonneg (93/2) 28 46 28 (by norm_num) (by norm_num)
      (by norm_num) (by norm_num)]
    rfl
  rw [lbbSample, harg1, harg2]
  rw [getElevation_present envSentinel (93/2) 28 tileSentinel 1800 0 hname
    (by norm_num) (by norm_num)]
  norm_num [tileSentinel]
  decide

/-- The valid sample of bboxSentinel resolves to 300. -/
lemma sampleSentinel01 : lbbSample envSentinel bboxSentinel 0 1 = some 300 := by
  have harg1 : bboxSentinel.north - ((0 : ℕ) : ℚ) * arcSecond = 93/2 := by
    norm_num [bboxSentinel]
  have harg2 : bboxSentinel.west + ((1 : ℕ) : ℚ) * arcSecond = 100801/3600 := by
    norm_num [bboxSentinel, arcSecond]
  have hname : envSentinel (getTileName (93/2) (100801/3600)) = some tileSentinel := by
    rw [getTileName_nonneg (93/2) (100801/3600) 46 28 (by norm_num) (by norm_num)
      (by norm_num) (by norm_num)]
    rfl
  rw [lbbSample, harg1, harg2]
  rw [getElevation_present envSentinel (93/2) (100801/3600) tileSentinel 1800 1 hname
    (by norm_num) (by norm_num)]
  norm_num [tileSentinel]
  decide

/-- The sample list of the sentinel region in loop order. -/
lemma cellsSentinel : lbbCells envSentinel bboxSentinel = [some 0, some 300] := by
  have hh : (lbbHeight bboxSentinel).toNat = 1 := by
    have h1 : lbbHeight bboxSentinel = 1 := by
      norm_num [lbbHeight, bboxSentinel, arcSecond]
    rw [h1]
    rfl
  have hw : (lbbWidth bboxSentinel).toNat = 2 := by
    have h1 : lbbWidth bboxSentinel = 2 := by
      norm_num [lbbWidth, bboxSentinel, arcSecond]
    rw [h1]
    rfl
  rw [lbbCells, hh, hw]
  rw [show List.range 1 = [0] from rfl, show List.range 2 = [0, 1] from rfl]
  simp only [List.flatMap_cons, List.flatMap_nil, List.map_cons, List.map_nil,
    List.append_nil]
  rw [sampleSentinel00, sampleSentinel01]

/-- Claim C7 counterexample: in the sentinel region the only samples are
a no-data sample (substituted with the fallback 0) and a valid 300 m
sample, yet the reported minElevation is 0, not 300 — the substituted
fallback value did contribute to the running minimum. -/
theorem C7_counterexample :
    (loadBoundingBox envSentinel bboxSentinel).minElevation = JsNum.fin 0 ∧
    (lbbCells envSentinel bboxSentinel).filterMap id = [0, 300] ∧
    JsNum.fin 0 ≠ JsNum.fin 300 := by
  refine ⟨?_, ?_, ?_⟩
  · show minFold (lbbCells envSentinel bboxSentinel) = JsNum.fin 0
    rw [cellsSentinel]
    rfl
  · rw [cellsSentinel]
    rfl
  · intro h
    have : (0 : ℚ) = 300 := JsNum.fin.inj h
    norm_num at this

/-- The ceiling of one half. -/
lemma ceil_half : (⌈(1/2 : ℚ)⌉ : ℤ) = 1 := by
  rw [Int.ceil_eq_iff]
  norm_num

/-- The western cell of the cfg1 build samples 300 m from tile N47E028. -/
lemma sampleMoldova00 : hmSample env1 cfg1 0 0 = some 300 := by
  have harg1 : cfg1.bbox.north - ((0 : ℕ) : ℚ) * hmStep cfg1 = 95/2 := by
    norm_num [cfg1, hmStep, arcSecond]
  have harg2 : cfg1.bbox.west + ((0 : ℕ) : ℚ) * hmStep cfg1 = 28 := by
    norm_num [cfg1, hmStep, arcSecond]
  have hname : env1 (getTileName (95/2) 28) = some tileConst300 := by
    rw [getTileName_nonneg (95/2) 28 47 28 (by norm_num) (by norm_num)
      (by norm_num) (by norm_num)]
    rfl
  rw [hmSample, harg1, harg2]
  rw [getElevation_present env1 (95/2) 28 tileConst300 1800 0 hname
    (by norm_num) (by norm_num)]
  norm_num [tileConst300]

/-- The eastern cell of the cfg1 build hits the absent tile N47E029. -/
lemma sampleMoldova01 : hmSample env1 cfg1 0 1 = none := by
  have harg1 : cfg1.bbox.north - ((0 : ℕ) : ℚ) * hmStep cfg1 = 95/2 := by
    norm_num [cfg1, hmStep, arcSecond]
  have harg2 : cfg1.bbox.west + ((1 : ℕ) : ℚ) * hmStep cfg1 = 29 := by
    norm_num [cfg1, hmStep, arcSecond]
  have hname : env1 (getTileName (95/2) 29) = none := by
    rw [getTileName_nonneg (95/2) 29 47 29 (by norm_num) (by norm_num)
      (by norm_num) (by norm_num)]
    rfl
  rw [hmSample, harg1, harg2, getElevation_eq, hname]
  rfl

/-- The cfg1 build has exactly one row of two samples. -/
lemma cellsMoldova : hmCells env1 cfg1 = [some 300, none] := by
  have hh : (hmLength cfg1).toNat = 1 := by
    have h1 : hmLength cfg1 = 1 := by
      norm_num [hmLength, cfg1, hmStep, arcSecond, ceil_half]
    rw [h1]
    rfl
  have hw : (hmWidth cfg1).toNat = 2 := by
    have h1 : hmWidth cfg1 = 2 := by
      norm_num [hmWidth, cfg1, hmStep, arcSecond]
    rw [h1]
    rfl
  rw [hmCells, hh, hw]
  rw [show List.range 1 = [0] from rfl, show List.range 2 = [0, 1] from rfl]
  simp only [List.flatMap_cons, List.flatMap_nil, List.map_cons, List.map_nil,
    List.append_nil]
  rw [sampleMoldova00, sampleMoldova01]

/-- The realized minimum of the cfg1 build is the valid sample 300. -/
lemma minElevMoldova : hmMinElev env1 cfg1 = JsNum.fin 300 := by
  rw [hmMinElev, cellsMoldova]
  rfl

/-- The one-cell region query of bboxMissing fails to resolve (its tile
is absent from env1). -/
lemma sampleMissing00 : lbbSample env1 bboxMissing 0 0 = none := by
  have harg1 : bboxMissing.north - ((0 : ℕ) : ℚ) * arcSecond = 47 := by
    norm_num [bboxMissing]
  have harg2 : bboxMissing.west + ((0 : ℕ) : ℚ) * arcSecond = 29 := by
    norm_num [bboxMissing]
  have hname : env1 (getTileName 47 29) = none := by
    rw [getTileName_nonneg 47 29 47 29 (by norm_num) (by norm_num)
      (by norm_num) (by norm_num)]
    rfl
  rw [lbbSample, harg1, harg2, getElevation_eq, hname]
  rfl

/-- The one-cell region of bboxMissing over envOutOfRange resolves to
the raw out-of-range value -2000 (no substitution, no exception). -/
lemma sampleOut00 : lbbSample envOutOfRange bboxMissing 0 0 = some (-2000) := by
  have harg1 : bboxMissing.north - ((0 : ℕ) : ℚ) * arcSecond = 47 := by
    norm_num [bboxMissing]
  have harg2 : bboxMissing.west + ((0 : ℕ) : ℚ) * arcSecond = 29 := by
    norm_num [bboxMissing]
  have hname : envOutOfRange (getTileName 47 29) = some tileOutOfRange := by
    rw [getTileName_nonneg 47 29 47 29 (by norm_num) (by norm_num)
      (by norm_num) (by norm_num)]
    rfl
  rw [lbbSample, harg1, harg2]
  rw [getElevation_present envOutOfRange 47 29 tileOutOfRange 3600 0 hname
    (by norm_num) (by norm_num)]
  norm_num [tileOutOfRange]

/-- The sample list of the out-of-range region in loop order. -/
lemma cellsOut : lbbCells envOutOfRange bboxMissing = [some (-2000)] := by
  have hh : (lbbHeight bboxMissing).toNat = 1 := by
    have h1 : lbbHeight bboxMissing = 1 := by
      norm_num [lbbHeight, bboxMissing, arcSecond]
    rw [h1]
    rfl
  have hw : (lbbWidth bboxMissing).toNat = 1 := by
    have h1 : lbbWidth bboxMissing = 1 := by
      norm_num [lbbWidth, bboxMissing, arcSecond]
    rw [h1]
    rfl
  rw [lbbCells, hh, hw]
  rw [show List.range 1 = [0] from rfl]
  simp only [List.flatMap_cons, List.flatMap_nil, List.map_cons, List.map_nil,
    List.append_nil]
  rw [sampleOut00]

/-- Claim C1 (amended): an unresolved or out-of-range sample never fails
the run.  In the heightmap build the cell's raw elevation is stored as 0
(both for a missing tile and for a resolved sample at or below -1000)
and its output level is baseLevel + round((0 - minElevation)/scale),
which differs from baseLevel whenever that rounded term is nonzero.  In
the region query only a missing-tile cell (the catch branch) stores 0;
a sample that resolves is stored raw even when it is out of range, and
is merely excluded from the min/max tracking. -/
theorem C1_fallback_cells (tiles : TileStore) (config : TerrainConfig)
    (bbox : BoundingBox) (row col z x : Nat) (m : ℚ)
    (hrow : row < (lbbHeight bbox).toNat) (hcol : col < (lbbWidth bbox).toNat)
    (hz : z < (hmLength config).toNat) (hx : x < (hmWidth config).toNat)
    (hfail : hmSample tiles config z x = none ∨
      ∃ e, hmSample tiles config z x = some e ∧ e ≤ -1000)
    (hscale : config.scale ≠ 0)
    (hmin : hmMinElev tiles config = JsNum.fin m) :
    (lbbSample tiles bbox row col = none →
      (loadBoundingBox tiles bbox).data.getD
        (row * (lbbWidth bbox).toNat + col) 0 = 0) ∧
    (∀ e : Int, lbbSample tiles bbox row col = some e →
      (loadBoundingBox tiles bbox).data.getD
        (row * (lbbWidth bbox).toNat + col) 0 = e) ∧
    hmRawCell tiles config z x = 0 ∧
    getH (generateHeightmap tiles config) z x =
      JsNum.fin ((config.baseY : ℚ) + ((⌊(0 - m) / config.scale + 1/2⌋ : ℤ) : ℚ)) := by
  have hraw : hmRawCell tiles config z x = 0 := by
    rcases hfail with h | ⟨e, he, hle⟩
    · simp only [hmRawCell, h]
    · simp only [hmRawCell, he]
      rw [if_neg (by omega)]
  refine ⟨?_, ?_, hraw, ?_⟩
  · intro hmiss
    rw [lbbData_getD tiles bbox row col hrow hcol, hmiss]
    rfl
  · intro e he
    rw [lbbData_getD tiles bbox row col hrow hcol, he]
    rfl
  · rw [getH_generate tiles config z x hz hx, hraw, hmin,
      hmLevel_fin config m 0 hscale]
    norm_num

/-- Witness for C1_fallback_cells at the concrete Moldova-edge setup:
the missing-tile region cell stores 0, the missing-tile heightmap cell
stores raw elevation 0 and maps to the formula's level. -/
theorem C1_witness :
    (loadBoundingBox env1 bboxMissing).data.getD
      (0 * (lbbWidth bboxMissing).toNat + 0) 0 = 0 ∧
    hmRawCell env1 cfg1 0 1 = 0 ∧
    getH (generateHeightmap env1 cfg1) 0 1 =
      JsNum.fin ((cfg1.baseY : ℚ) + ((⌊(0 - 300) / cfg1.scale + 1/2⌋ : ℤ) : ℚ)) := by
  have h := C1_fallback_cells env1 cfg1 bboxMissing 0 0 0 1 300
    (by norm_num [lbbHeight, bboxMissing, arcSecond])
    (by norm_num [lbbWidth, bboxMissing, arcSecond])
    (by norm_num [hmLength, cfg1, hmStep, arcSecond, ceil_half])
    (by norm_num [hmWidth, cfg1, hmStep, arcSecond])
    (Or.inl sampleMoldova01)
    (by norm_num [cfg1])
    minElevMoldova
  exact ⟨h.1 sampleMissing00, h.2.2.1, h.2.2.2⟩

/-- Claim C1 counterexample: the missing-tile cell of the cfg1 build
stores elevation 0, but its output level is 54, not the base level 64
(realized minElevation 300, scale 30: baseY + round((0 - 300)/30) = 54);
and a region-query cell whose sample resolves to the out-of-range value
-2000 stores -2000 raw, not the fallback 0. -/
theorem C1_counterexample :
    hmSample env1 cfg1 0 1 = none ∧
    (generateHeightmap env1 cfg1).minY = 64 ∧
    getH (generateHeightmap env1 cfg1) 0 1 = JsNum.fin 54 ∧
    JsNum.fin 54 ≠ JsNum.fin ((64 : ℤ) : ℚ) ∧
    lbbSample envOutOfRange bboxMissing 0 0 = some (-2000) ∧
    (loadBoundingBox envOutOfRange bboxMissing).data.getD 0 0 = -2000 ∧
    ((-2000 : Int) ≠ 0) := by
  refine ⟨sampleMoldova01, rfl, ?_, ?_, sampleOut00, ?_, by decide⟩
  · have hz : (0 : ℕ) < (hmLength cfg1).toNat := by
      norm_num [hmLength, cfg1, hmStep, arcSecond, ceil_half]
    have hx : (1 : ℕ) < (hmWidth cfg1).toNat := by
      norm_num [hmWidth, cfg1, hmStep, arcSecond]
    have hraw : hmRawCell env1 cfg1 0 1 = 0 := by
      simp only [hmRawCell, sampleMoldova01]
    rw [getH_generate env1 cfg1 0 1 hz hx, hraw, minElevMoldova,
      hmLevel_fin cfg1 300 0 (by norm_num [cfg1])]
    have hfloor : (⌊(((0 : ℤ) : ℚ) - 300) / cfg1.scale + 1/2⌋ : ℤ) = -10 := by
      norm_num [cfg1]
    rw [hfloor]
    norm_num [cfg1]
  · intro h
    have : (54 : ℚ) = ((64 : ℤ) : ℚ) := JsNum.fin.inj h
    norm_num at this
  · show ((lbbCells envOutOfRange bboxMissing).map cellStore).getD 0 0 = -2000
    rw [cellsOut]
    rfl

/-- Subtraction of finite JsNum values. -/
lemma sub_fin_fin (a b : ℚ) : JsNum.sub (JsNum.fin a) (JsNum.fin b) = JsNum.fin (a - b) := rfl

/-- Comparison of finite JsNum values. -/
lemma le_fin_fin (a b : ℚ) : JsNum.le (JsNum.fin a) (JsNum.fin b) = decide (a ≤ b) := rfl

/-- A false JavaScript strict inequality means the operands are equal. -/
lemma ne_eq_false {a b : JsNum} (h : JsNum.ne a b = false) : a = b := by
  cases a <;> cases b <;> simp_all [JsNum.ne]

/-- Folding the expansion step from an arbitrary accumulator: the result
is the list's own expansion when some fill covers the cell, and the
accumulator otherwise. -/
lemma expand_foldl_acc (R : List Fill) (x : Nat) (y : ℚ) (z : Nat) :
    ∀ acc : Option String,
      R.foldl (fun acc f => if covers f x y z then some f.block else acc) acc =
        match expand R x y z with
        | some b => some b
        | none => acc := by
  induction R with
  | nil => intro acc; rfl
  | cons f R ih =>
      intro acc
      rw [List.foldl_cons]
      rw [show expand (f :: R) x y z
          = R.foldl (fun acc g => if covers g x y z then some g.block else acc)
            (if covers f x y z then some f.block else none) from rfl]
      rw [ih (if covers f x y z then some f.block else acc),
        ih (if covers f x y z then some f.block else none)]
      cases hR : expand R x y z with
      | some b => rfl
      | none =>
          by_cases hcov : covers f x y z
          · rw [if_pos hcov, if_pos hcov]
          · rw [if_neg hcov, if_neg hcov]

/-- Expansion of a concatenation: a fill in the second part wins,
otherwise the first part decides. -/
lemma expand_append (P R : List Fill) (x : Nat) (y : ℚ) (z : Nat) :
    expand (P ++ R) x y z =
      match expand R x y z with
      | some b => some b
      | none => expand P x y z := by
  rw [expand, List.foldl_append]
  exact expand_foldl_acc R x y z _

/-- The fills emitted for one row are exactly the rendering of its run
decomposition: three fills per closed run. -/
lemma chunkRowLoop_eq_runs (hm : HeightMap) (z endX : Nat) :
    ∀ (fuel x runStart : Nat) (runHeight : JsNum),
      chunkRowLoop hm z endX fuel x runStart runHeight =
        (chunkRowRuns hm z endX fuel x runStart runHeight).flatMap
          fun r => runFills hm.minY z r.1 r.2.1 r.2.2 := by
  intro fuel
  induction fuel with
  | zero => intro x rs rh; rfl
  | succ fuel ih =>
      intro x rs rh
      by_cases hx : x ≤ endX
      · cases hc : (JsNum.ne (if x < endX then getH hm z x else JsNum.fin (-1)) rh
            || (x == endX)) with
        | true => simp [chunkRowLoop, chunkRowRuns, hx, hc, ih]
        | false => simp [chunkRowLoop, chunkRowRuns, hx, hc, ih]
      · simp only [chunkRowLoop, chunkRowRuns, if_neg hx, List.flatMap_nil]

/-- Claim C8 (amended): the emitted command list of every chunk is, row
by row, the concatenation of exactly three fills per closed run: a stone
base from minY - 4 (four below the field's minimum level) up to the
run's surface - 4, a dirt layer on the three levels immediately below
the surface, and a single fixed-material grass_block surface layer (see
runFills).  The claim's reading of the stone base as running from
"4 levels below the run's surface" down to "surface - 4" (a single
layer) does not match the code, whose lower bound is minY - 4. -/
theorem C8_run_fills_shape (hm : HeightMap) (startX startZ chunkSize : Nat) :
    generateChunkCommands hm startX startZ chunkSize =
      (List.range (chunkEndZ hm startZ chunkSize - startZ)).flatMap fun dz =>
        (chunkRowRuns hm (startZ + dz) (chunkEndX hm startX chunkSize)
            (chunkEndX hm startX chunkSize - startX) (startX + 1) startX
            (getH hm (startZ + dz) startX)).flatMap
          fun r => runFills hm.minY (startZ + dz) r.1 r.2.1 r.2.2 := by
  rw [generateChunkCommands]
  simp only [chunkRowLoop_eq_runs]

/-- A one-cell heightmap with surface level 70 over minY 64. -/
def hmSingle : HeightMap :=
  { width := 1, length := 1, heights := [[JsNum.fin 70]], minY := 64, maxY := JsNum.fin 70 }

/-- Claim C8 counterexample: for the single run of hmSingle (surface 70,
minY 64) the emitted stone base spans y 60 to 66 — its lower bound is
minY - 4 = 60, not the run's surface - 4 = 66, so the stone base is not
the claimed band from "4 levels below the run's surface" down to
"surface - 4". -/
theorem C8_counterexample :
    generateChunkCommands hmSingle 0 0 16 =
      [ { x1 := 0, y1 := JsNum.fin 60, z1 := 0, x2 := 0,
          y2 := JsNum.fin 66, z2 := 0, block := "stone" },
        { x1 := 0, y1 := JsNum.fin 67, z1 := 0, x2 := 0,
          y2 := JsNum.fin 69, z2 := 0, block := "dirt" },
        { x1 := 0, y1 := JsNum.fin 70, z1 := 0, x2 := 0,
          y2 := JsNum.fin 70, z2 := 0, block := "grass_block" } ] ∧
    (60 : ℚ) ≠ 70 - 4 := by
  constructor
  · have hEndX : chunkEndX hmSingle 0 16 = 1 := by
      simp [chunkEndX, hmSingle, min_def]
    have hEndZ : chunkEndZ hmSingle 0 16 = 1 := by
      simp [chunkEndZ, hmSingle, min_def]
    simp only [generateChunkCommands, hEndX, hEndZ]
    norm_num [chunkRowLoop, runFills, getH, hmSingle, JsNum.ne, sub_fin_fin,
      show List.range 1 = [0] from rfl, List.flatMap_cons, List.flatMap_nil]
  · norm_num

/-- A reachable heightmap with a fallback cell below minY: one valid
300 m sample (level 64) and one missing-tile cell (level 54) at
scale 30, baseY 64. -/
def hmLossy : HeightMap :=
  { width := 2, length := 1, heights := [[JsNum.fin 64, JsNum.fin 54]],
    minY := 64, maxY := JsNum.fin 64 }

/-- Claim C3 counterexample: expanding the fills of hmLossy's single
chunk leaves stone at (x, y, z) = (1, 60, 0), above that column's
surface level 54 — the decompressed grid does not reproduce the input
column (whose material at y = 60 should be empty), because the stone
fill of the sub-minY run spans from minY - 4 = 60 down to 54 - 4 = 50. -/
theorem C3_counterexample :
    expand (generateChunkCommands hmLossy 0 0 16) 1 60 0 = some "stone" ∧
    expectedColumn 64 54 60 = none := by
  constructor
  · have hEndX : chunkEndX hmLossy 0 16 = 2 := by
      simp [chunkEndX, hmLossy, min_def]
    have hEndZ : chunkEndZ hmLossy 0 16 = 1 := by
      simp [chunkEndZ, hmLossy, min_def]
    have hfills : generateChunkCommands hmLossy 0 0 16 =
        [ { x1 := 0, y1 := JsNum.fin 60, z1 := 0, x2 := 0,
            y2 := JsNum.fin 60, z2 := 0, block := "stone" },
          { x1 := 0, y1 := JsNum.fin 61, z1 := 0, x2 := 0,
            y2 := JsNum.fin 63, z2 := 0, block := "dirt" },
          { x1 := 0, y1 := JsNum.fin 64, z1 := 0, x2 := 0,
            y2 := JsNum.fin 64, z2 := 0, block := "grass_block" },
          { x1 := 1, y1 := JsNum.fin 60, z1 := 0, x2 := 1,
            y2 := JsNum.fin 50, z2 := 0, block := "stone" },
          { x1 := 1, y1 := JsNum.fin 51, z1 := 0, x2 := 1,
            y2 := JsNum.fin 53, z2 := 0, block := "dirt" },
          { x1 := 1, y1 := JsNum.fin 54, z1 := 0, x2 := 1,
            y2 := JsNum.fin 54, z2 := 0, block := "grass_block" } ] := by
      simp only [generateChunkCommands, hEndX, hEndZ]
      norm_num [chunkRowLoop, runFills, getH, hmLossy, JsNum.ne, sub_fin_fin,
        show List.range 1 = [0] from rfl, List.flatMap_cons, List.flatMap_nil]
    rw [hfills]
    norm_num [expand, covers, yBetween, le_fin_fin, min_def, max_def]
  · norm_num [expectedColumn]

/-- Expanding the three fills of one run of constant level q (with
minY <= q) gives the expected material column on the run's columns and
nothing elsewhere. -/
lemma expand_runFills (minY : ℤ) (z rs re : Nat) (q : ℚ)
    (hq : (minY : ℚ) ≤ q) (hre : rs ≤ re) (x z₀ : Nat) (y : ℚ) :
    expand (runFills minY z rs re (JsNum.fin q)) x y z₀ =
      if rs ≤ x ∧ x ≤ re ∧ z₀ = z then expectedColumn minY q y else none := by
  have hminx : Min.min rs re = rs := min_eq_left hre
  have hmaxx : Max.max rs re = re := max_eq_right hre
  simp only [runFills, expand, List.foldl_cons, List.foldl_nil, covers, yBetween,
    sub_fin_fin, le_fin_fin, hminx, hmaxx, Nat.min_self, Nat.max_self,
    Bool.and_eq_true, Bool.or_eq_true, decide_eq_true_eq, expectedColumn]
  by_cases hz : z₀ = z
  · subst hz
    simp only [le_refl, and_true, and_self, eq_self_iff_true, true_and]
    by_cases hx : rs ≤ x ∧ x ≤ re
    · have hgr : (q ≤ y ∧ y ≤ q) ↔ y = q :=
        ⟨fun h => le_antisymm h.2 h.1, fun h => by rw [h]; exact ⟨le_refl q, le_refl q⟩⟩
      have hdr : ¬ (q - 1 ≤ y ∧ y ≤ q - 3) := fun h => by linarith [h.1, h.2]
      have hsr : ((minY : ℚ) - 4 ≤ y ∧ y ≤ q - 4 ∨ (q - 4 ≤ y ∧ y ≤ (minY : ℚ) - 4)) ↔
          ((minY : ℚ) - 4 ≤ y ∧ y ≤ q - 4) := by
        constructor
        · rintro (h | ⟨a, b⟩)
          · exact h
          · exact ⟨by linarith, by linarith⟩
        · exact Or.inl
      simp only [hx.1, hx.2, true_and, and_true, or_self, hgr, hdr, or_false, hsr, if_true]
    · simp [hx]
  · have hzf : ¬ (z ≤ z₀ ∧ z₀ ≤ z) := fun h => hz (le_antisymm h.2 h.1)
    have hc : ∀ (P : Prop), ¬ (P ∧ z ≤ z₀ ∧ z₀ ≤ z) := fun P h => hzf h.2
    rw [if_neg (hc _), if_neg (hc _), if_neg (hc _), if_neg (fun h => hz h.2.2)]

/-- Expanding the fills emitted for one row: every column the scan has
tiled so far decompresses to the expected material column of its level,
and nothing outside the row or its column range is touched. -/
lemma chunkRow_expand (hm : HeightMap) (w : Nat) (hq : Nat → Nat → ℚ) (z endX : Nat)
    (hendX : endX ≤ w)
    (hrep : ∀ x, x < w → getH hm z x = JsNum.fin (hq z x))
    (hmin : ∀ x, x < w → (hm.minY : ℚ) ≤ hq z x) :
    ∀ (fuel x rs : Nat) (rh : JsNum),
      fuel + x = endX + 1 → rs < x → x ≤ endX →
      (∀ c, rs ≤ c → c < x → getH hm z c = rh) →
      ∀ (x₀ z₀ : Nat) (y : ℚ),
        expand (chunkRowLoop hm z endX fuel x rs rh) x₀ y z₀ =
          if rs ≤ x₀ ∧ x₀ < endX ∧ z₀ = z then expectedColumn hm.minY (hq z x₀) y
          else none := by
  intro fuel
  induction fuel with
  | zero =>
      intro x rs rh hfx hrs hx
      omega
  | succ fuel ih =>
      intro x rs rh hfx hrs hx hconst x₀ z₀ y
      have hrsE : rs < endX := lt_of_lt_of_le hrs hx
      have hrh : rh = JsNum.fin (hq z rs) := by
        have h1 := hconst rs (le_refl rs) hrs
        have h2 := hrep rs (lt_of_lt_of_le hrsE hendX)
        rw [h1] at h2
        exact h2
      have hqrs_min : (hm.minY : ℚ) ≤ hq z rs := hmin rs (lt_of_lt_of_le hrsE hendX)
      have hconstq : ∀ c, rs ≤ c → c < x → hq z c = hq z rs := by
        intro c h1 h2
        have h3 := hconst c h1 h2
        rw [hrep c (lt_of_lt_of_le (lt_of_lt_of_le h2 hx) hendX)] at h3
        rw [hrh] at h3
        exact JsNum.fin.inj h3
      simp only [chunkRowLoop]
      rw [if_pos hx]
      by_cases hxe : x = endX
      · subst hxe
        rw [if_neg (lt_irrefl x)]
        have hcond : (JsNum.ne (JsNum.fin (-1)) rh || (x == x)) = true := by
          simp
        rw [if_pos hcond]
        have hfuel0 : fuel = 0 := by omega
        subst hfuel0
        rw [show chunkRowLoop hm z x 0 (x + 1) x (JsNum.fin (-1)) = [] from rfl,
          List.append_nil]
        rw [hrh, expand_runFills hm.minY z rs (x - 1) (hq z rs) hqrs_min
          (by omega) x₀ z₀ y]
        by_cases hin : rs ≤ x₀ ∧ x₀ < x ∧ z₀ = z
        · rw [if_pos ⟨hin.1, by omega, hin.2.2⟩, if_pos hin,
            hconstq x₀ hin.1 hin.2.1]
        · rw [if_neg (fun h => hin ⟨h.1, by omega, h.2.2⟩), if_neg hin]
      · have hxlt : x < endX := lt_of_le_of_ne hx hxe
        rw [if_pos hxlt]
        have hgx : getH hm z x = JsNum.fin (hq z x) :=
          hrep x (lt_of_lt_of_le hxlt hendX)
        rw [hgx]
        cases hne : JsNum.ne (JsNum.fin (hq z x)) rh with
        | true =>
            rw [if_pos (by simp : ((true || (x == endX)) = true))]
            have hrest := ih (x + 1) x (JsNum.fin (hq z x)) (by omega) (by omega)
              (by omega) (fun c h1 h2 => by
                have hcx : c = x := by omega
                rw [hcx, hgx])
            rw [expand_append, hrest x₀ z₀ y, hrh,
              expand_runFills hm.minY z rs (x - 1) (hq z rs) hqrs_min
                (by omega) x₀ z₀ y]
            by_cases hin2 : x ≤ x₀ ∧ x₀ < endX ∧ z₀ = z
            · rw [if_pos hin2, if_neg (by rintro ⟨h1, h2, h3⟩; omega :
                ¬ (rs ≤ x₀ ∧ x₀ ≤ x - 1 ∧ z₀ = z))]
              rw [if_pos (⟨by omega, hin2.2.1, hin2.2.2⟩ :
                rs ≤ x₀ ∧ x₀ < endX ∧ z₀ = z)]
              cases expectedColumn hm.minY (hq z x₀) y <;> rfl
            · rw [if_neg hin2]
              by_cases hin : rs ≤ x₀ ∧ x₀ < endX ∧ z₀ = z
              · have hx0 : x₀ < x := by
                  rcases hin with ⟨a, b, c⟩
                  by_contra hh
                  exact hin2 ⟨by omega, b, c⟩
                rw [if_pos (⟨hin.1, by omega, hin.2.2⟩ :
                  rs ≤ x₀ ∧ x₀ ≤ x - 1 ∧ z₀ = z)]
                rw [if_pos hin, hconstq x₀ hin.1 hx0]
              · rw [if_neg (fun h => hin ⟨h.1, by omega, h.2.2⟩), if_neg hin]
        | false =>
            have heq : JsNum.fin (hq z x) = rh := ne_eq_false hne
            rw [if_neg (by simp [hxe] : ¬ ((false || (x == endX)) = true))]
            exact ih (x + 1) rs rh (by omega) (by omega) (by omega)
              (fun c h1 h2 => by
                by_cases hcx : c < x
                · exact hconst c h1 hcx
                · have hce : c = x := by omega
                  rw [hce, hgx, heq]) x₀ z₀ y

/-- Expansion distributes over a union of rows when rows other than the
queried one never cover the cell. -/
lemma expand_flatMap (F : Nat → List Fill) (x₀ : Nat) (y : ℚ) (z₀ : Nat) :
    ∀ zs : List Nat,
      (∀ z ∈ zs, z ≠ z₀ → expand (F z) x₀ y z₀ = none) →
      expand (zs.flatMap F) x₀ y z₀ =
        if z₀ ∈ zs then expand (F z₀) x₀ y z₀ else none := by
  intro zs
  induction zs with
  | nil =>
      intro h
      simp [expand]
  | cons z zs ih =>
      intro h
      rw [List.flatMap_cons, expand_append,
        ih fun t ht hne => h t (List.mem_cons_of_mem z ht) hne]
      by_cases hz : z₀ ∈ zs
      · rw [if_pos hz, if_pos (List.mem_cons_of_mem z hz)]
        cases hE : expand (F z₀) x₀ y z₀ with
        | some b => rfl
        | none =>
            by_cases hzz : z = z₀
            · rw [hzz, hE]
            · rw [h z (List.mem_cons_self z zs) hzz]
      · rw [if_neg hz]
        by_cases hzz : z = z₀
        · subst hzz
          rw [if_pos (List.mem_cons_self z zs)]
        · rw [h z (List.mem_cons_self z zs) hzz,
            if_neg (by
              simp only [List.mem_cons]
              rintro (h1 | h2)
              · exact hzz h1.symm
              · exact hz h2)]

/-- Claim C3 (amended): for every chunk of a height field whose cells
all lie at or above the field's minY (true of every valid sample; a
missing-tile fallback can violate it when minElevation > 0), expanding
the emitted fills reproduces exactly the chunk's height and material
grid: inside the chunk every cell (x, y, z) holds the expected material
of a column with surface hq z x over minY, and outside the chunk
nothing is assigned. -/
theorem C3_roundtrip (hm : HeightMap) (w l : Nat) (hq : Nat → Nat → ℚ)
    (startX startZ chunkSize : Nat)
    (hw : hm.width = (w : ℤ)) (hl : hm.length = (l : ℤ))
    (hrep : ∀ z x, z < l → x < w → getH hm z x = JsNum.fin (hq z x))
    (hmin : ∀ z x, z < l → x < w → (hm.minY : ℚ) ≤ hq z x)
    (hcs : 1 ≤ chunkSize) (hsx : startX < w) (hsz : startZ < l)
    (x₀ z₀ : Nat) (y : ℚ) :
    expand (generateChunkCommands hm startX startZ chunkSize) x₀ y z₀ =
      if startX ≤ x₀ ∧ x₀ < Min.min (startX + chunkSize) w ∧
         startZ ≤ z₀ ∧ z₀ < Min.min (startZ + chunkSize) l
      then expectedColumn hm.minY (hq z₀ x₀) y
      else none := by
  have hEndX : chunkEndX hm startX chunkSize = Min.min (startX + chunkSize) w := by
    rw [chunkEndX, hw,
      show ((startX : ℤ) + (chunkSize : ℤ)) = ((startX + chunkSize : ℕ) : ℤ) by push_cast; ring,
      ← Nat.cast_min, Int.toNat_natCast]
  have hEndZ : chunkEndZ hm startZ chunkSize = Min.min (startZ + chunkSize) l := by
    rw [chunkEndZ, hl,
      show ((startZ : ℤ) + (chunkSize : ℤ)) = ((startZ + chunkSize : ℕ) : ℤ) by push_cast; ring,
      ← Nat.cast_min, Int.toNat_natCast]
  have hendXw : Min.min (startX + chunkSize) w ≤ w := min_le_right _ _
  have hendZl : Min.min (startZ + chunkSize) l ≤ l := min_le_right _ _
  have hsxE : startX < Min.min (startX + chunkSize) w := lt_min (by omega) hsx
  have hszE : startZ < Min.min (startZ + chunkSize) l := lt_min (by omega) hsz
  have hrow : ∀ zz, zz < l →
      expand (chunkRowLoop hm zz (Min.min (startX + chunkSize) w)
        (Min.min (startX + chunkSize) w - startX) (startX + 1) startX
        (getH hm zz startX)) x₀ y z₀ =
      if startX ≤ x₀ ∧ x₀ < Min.min (startX + chunkSize) w ∧ z₀ = zz
      then expectedColumn hm.minY (hq zz x₀) y else none := by
    intro zz hzz
    exact chunkRow_expand hm w hq zz (Min.min (startX + chunkSize) w) hendXw
      (fun xx hxx => hrep zz xx hzz hxx) (fun xx hxx => hmin zz xx hzz hxx)
      (Min.min (startX + chunkSize) w - startX) (startX + 1) startX
      (getH hm zz startX) (by omega) (by omega) (by omega)
      (fun c h1 h2 => by
        have hce : c = startX := by omega
        rw [hce]) x₀ z₀ y
  simp only [generateChunkCommands, hEndX, hEndZ]
  rw [show (List.range (Min.min (startZ + chunkSize) l - startZ)).flatMap
        (fun dz => chunkRowLoop hm (startZ + dz) (Min.min (startX + chunkSize) w)
          (Min.min (startX + chunkSize) w - startX) (startX + 1) startX
          (getH hm (startZ + dz) startX))
      = ((List.range (Min.min (startZ + chunkSize) l - startZ)).map
          (fun dz => startZ + dz)).flatMap
        (fun zz => chunkRowLoop hm zz (Min.min (startX + chunkSize) w)
          (Min.min (startX + chunkSize) w - startX) (startX + 1) startX
          (getH hm zz startX))
    from (List.flatMap_map (fun dz => startZ + dz)
      (fun zz => chunkRowLoop hm zz (Min.min (startX + chunkSize) w)
        (Min.min (startX + chunkSize) w - startX) (startX + 1) startX
        (getH hm zz startX))
      (List.range (Min.min (startZ + chunkSize) l - startZ))).symm]
  rw [expand_flatMap _ x₀ y z₀ _ (by
    intro zz hzz hne
    simp only [List.mem_map, List.mem_range] at hzz
    obtain ⟨dz, hdz, hdzz⟩ := hzz
    have hzzl : zz < l := by omega
    rw [hrow zz hzzl, if_neg fun h => hne h.2.2.symm])]
  have hmem : (z₀ ∈ (List.range (Min.min (startZ + chunkSize) l - startZ)).map
      fun dz => startZ + dz) ↔ (startZ ≤ z₀ ∧ z₀ < Min.min (startZ + chunkSize) l) := by
    simp only [List.mem_map, List.mem_range]
    constructor
    · rintro ⟨dz, hdz, hdzz⟩
      omega
    · intro hin
      exact ⟨z₀ - startZ, by omega, by omega⟩
  by_cases hzin : startZ ≤ z₀ ∧ z₀ < Min.min (startZ + chunkSize) l
  · rw [if_pos (hmem.mpr hzin), hrow z₀ (by omega)]
    by_cases hxin : startX ≤ x₀ ∧ x₀ < Min.min (startX + chunkSize) w
    · rw [if_pos ⟨hxin.1, hxin.2, rfl⟩, if_pos ⟨hxin.1, hxin.2, hzin.1, hzin.2⟩]
    · rw [if_neg fun h => hxin ⟨h.1, h.2.1⟩, if_neg fun h => hxin ⟨h.1, h.2.1⟩]
  · rw [if_neg fun h => hzin (hmem.mp h), if_neg fun h => hzin ⟨h.2.2.1, h.2.2.2⟩]

/-- A flat two-column heightmap at level 70 over minY 64. -/
def hmFlat : HeightMap :=
  { width := 2, length := 1, heights := [[JsNum.fin 70, JsNum.fin 70]],
    minY := 64, maxY := JsNum.fin 70 }

/-- The level function of hmFlat. -/
def hqFlat : Nat → Nat → ℚ := fun _ _ => 70

/-- Witness: the round trip at hmFlat recovers the grass surface. -/
theorem C3_witness :
    expand (generateChunkCommands hmFlat 0 0 16) 0 70 0 = some "grass_block" := by
  have h := C3_roundtrip hmFlat 2 1 hqFlat 0 0 16 rfl rfl
    (fun z x hz hx => by
      interval_cases z
      interval_cases x
      · rfl
      · rfl)
    (fun z x hz hx => by norm_num [hmFlat, hqFlat])
    (by norm_num) (by norm_num) (by norm_num) 0 0 70
  rw [h]
  rw [if_pos ⟨le_refl 0, by decide, le_refl 0, by decide⟩]
  norm_num [expectedColumn, hqFlat, hmFlat]


end Discovery
